import Mathlib

/-!
Verification of the judgment-tool repository's decision-scoring engine and
data-acquisition error handling.

The definitions below are a shallow embedding of the pure functions in
src/app.js and its second historical version (src/unnamed/part_000).
Prices are modelled as exact rationals; the JS helpers Math.floor and
Math.round become Int.floor-based operations on the rationals.  Enumerated
string inputs (sentiment, market, earningsProx) stay strings, matching the
JS dynamic lookup tables; result variants (signal, size, position) become
inductive tags, with the human-readable label and reason fields of the JS
result objects omitted as pure presentation data.
-/

namespace JudgmentTool

/-- A value produced by a JS object-literal property read: either an own
numeric member of the lookup table, or a non-nullish member inherited from
Object.prototype (a function or object, tagged here by its name). -/
inductive JsValue
  | num (n : Int)
  | inherited (name : String)
deriving DecidableEq, Repr

/-- The own property names of Object.prototype.  A property read on an
object literal falls through to these when the key is not an own member,
and each of them is a non-nullish function or object. -/
def objectPrototypeKeys : List String :=
  ["constructor", "hasOwnProperty", "isPrototypeOf", "propertyIsEnumerable",
   "toLocaleString", "toString", "valueOf", "__proto__",
   "__defineGetter__", "__defineSetter__", "__lookupGetter__",
   "__lookupSetter__"]

/-- Embeds calcMarketScore (src/app.js lines 33-36, part_000 lines 17-19):
the lookup in the literal good=2, normal=0, bad=-2 followed by the
nullish-coalescing default 0.  The property read consults the prototype
chain, so a key naming an Object.prototype member yields that inherited
non-nullish value and the default 0 never applies to it. -/
def calcMarketScore (sentiment : String) : JsValue :=
  if sentiment = "good" then JsValue.num 2
  else if sentiment = "normal" then JsValue.num 0
  else if sentiment = "bad" then JsValue.num (-2)
  else if sentiment ∈ objectPrototypeKeys then JsValue.inherited sentiment
  else JsValue.num 0

/-- Embeds calcFocusScore (src/app.js lines 44-47): table 1..5 to -2..2,
default 0. -/
def calcFocusScore (focus : Int) : Int :=
  if focus = 1 then -2
  else if focus = 2 then -1
  else if focus = 3 then 0
  else if focus = 4 then 1
  else if focus = 5 then 2
  else 0

/-- The position tags returned by calcPricePositionScore. -/
inductive PricePos
  | above_high
  | below_low
  | near_support
  | near_resistance
  | range
deriving DecidableEq, Repr

/-- Score and position pair returned by calcPricePositionScore. -/
structure PriceScore where
  score : Int
  position : PricePos
deriving DecidableEq, Repr

/-- Embeds calcPricePositionScore (src/app.js lines 60-84, part_000 lines
25-31): the five-way cascade over the prior range. -/
def calcPricePositionScore (currentPrice prevHigh prevLow : ℚ) : PriceScore :=
  if currentPrice > prevHigh then ⟨-2, PricePos.above_high⟩
  else if currentPrice < prevLow then ⟨-3, PricePos.below_low⟩
  else if currentPrice ≤ prevLow * 1.01 then ⟨1, PricePos.near_support⟩
  else if currentPrice ≥ prevHigh * 0.99 then ⟨-1, PricePos.near_resistance⟩
  else ⟨0, PricePos.range⟩

/-- The market-dependent rounding helper built inside calcStopLoss
(src/app.js lines 102-104): Math.round(v*100)/100 for the us market,
Math.floor(v) otherwise.  JS Math.round is floor of v + 1/2. -/
def marketRound (market : String) (v : ℚ) : ℚ :=
  if market = "us" then ((⌊v * 100 + 1/2⌋ : ℤ) : ℚ) / 100
  else ((⌊v⌋ : ℤ) : ℚ)

/-- Embeds calcStopLoss (src/app.js lines 100-110, part_000 lines 33-38). -/
def calcStopLoss (currentPrice prevLow : ℚ) (market : String) : ℚ :=
  if currentPrice > prevLow then marketRound market (prevLow * 0.995)
  else marketRound market (currentPrice * 0.98)

/-- Entry-signal tags. -/
inductive Signal
  | ok
  | watch
  | ng
deriving DecidableEq, Repr

/-- Embeds calcEntrySignal (src/app.js lines 177-194, part_000 lines
40-46): hard rules first, then score thresholds. -/
def calcEntrySignal (totalScore focus : Int) (sentiment : String) : Signal :=
  if focus ≤ 2 then Signal.ng
  else if sentiment = "bad" ∧ focus < 4 then Signal.ng
  else if totalScore ≥ 3 then Signal.ok
  else if totalScore ≥ 0 then Signal.watch
  else Signal.ng

/-- Embeds calcEntrySignalMid (part_000 lines 102-108). -/
def calcEntrySignalMid (totalScore focus : Int) (earningsProx : String) : Signal :=
  if focus ≤ 2 then Signal.ng
  else if earningsProx = "week" ∧ totalScore < 5 then Signal.watch
  else if totalScore ≥ 5 then Signal.ok
  else if totalScore ≥ 1 then Signal.watch
  else Signal.ng

/-- Position-size tags. -/
inductive Size
  | large
  | medium
  | small
  | pass
deriving DecidableEq, Repr

/-- The riskPercent expression computed at the top of calcPositionSize
(src/app.js line 213, part_000 line 49). -/
def riskPercent (currentPrice stopLoss : ℚ) : ℚ :=
  (currentPrice - stopLoss) / currentPrice * 100

/-- The tier cascade of calcPositionSize as a function of the already
computed riskPercent (src/app.js lines 216-240, part_000 lines 50-56). -/
def sizeTier (score : Int) (rp : ℚ) (focus : Int) (sentiment : String) : Size :=
  if 4 ≤ score ∧ rp ≤ 2 ∧ 4 ≤ focus ∧ sentiment = "good" then Size.large
  else if 2 ≤ score ∧ rp ≤ 3 ∧ 3 ≤ focus then Size.medium
  else if 0 ≤ score ∧ rp ≤ 5 then Size.small
  else Size.pass

/-- Embeds calcPositionSize (src/app.js lines 212-241, part_000 lines
48-57): compute riskPercent from the prices, then take the first matching
tier. -/
def calcPositionSize (score : Int) (currentPrice stopLoss : ℚ)
    (focus : Int) (sentiment : String) : Size :=
  sizeTier score (riskPercent currentPrice stopLoss) focus sentiment

/-- Embeds calcRR (part_000 lines 93-99).  The JS guard is the truthiness
test on targetPrice, so a present target of 0 is treated like an absent
one; the absent target is the none case. -/
def calcRR (currentPrice stopLoss : ℚ) (targetPrice : Option ℚ) : Option ℚ :=
  match targetPrice with
  | none => none
  | some t =>
    if t = 0 ∨ t ≤ currentPrice then none
    else if currentPrice - stopLoss ≤ 0 then none
    else some ((t - currentPrice) / (currentPrice - stopLoss))

/-- Character-list prefix test, a structural rendering of the JS
String.startsWith. -/
def charPrefix : List Char → List Char → Bool
  | [], _ => true
  | _ :: _, [] => false
  | a :: as, b :: bs => a == b && charPrefix as bs

/-- Character-list substring test, a structural rendering of the JS
String.includes. -/
def charContains (sub : List Char) : List Char → Bool
  | [] => charPrefix sub []
  | c :: rest => charPrefix sub (c :: rest) || charContains sub rest

/-- The isGeneric classifier used by fetchStockData's aggregate handler
(part_000 line 564): the message contains the manual-input marker. -/
def isGeneric (m : String) : Bool :=
  charContains "手動で".data m.data

/-- The isApiError classifier (part_000 line 565): provider-prefixed
messages. -/
def isApiError (m : String) : Bool :=
  charPrefix "[AV]".data m.data || charPrefix "[TD]".data m.data

/-- JS Set-based deduplication as in new Set(e.errors.map(...)) at
part_000 line 559: keep the first occurrence of each message, preserving
order. -/
def jsSetDedupAux : List String → List String → List String
  | [], _ => []
  | a :: l, seen =>
    if a ∈ seen then jsSetDedupAux l seen
    else a :: jsSetDedupAux l (a :: seen)

/-- Deduplicated message list in first-occurrence order. -/
def jsSetDedup (l : List String) : List String :=
  jsSetDedupAux l []

/-- JS || on a string-or-undefined value: an absent or empty string falls
through to the alternative. -/
def jsOrString (a b : Option String) : Option String :=
  match a with
  | some s => if s = "" then b else some s
  | none => b

/-- The best-message selection chain of fetchStockData (part_000 lines
566-569): first message neither generic nor provider-prefixed, else first
non-generic message, else the first message. -/
def selectBest (msgs : List String) : Option String :=
  jsOrString (msgs.find? fun m => !isGeneric m && !isApiError m)
    (jsOrString (msgs.find? fun m => !isGeneric m) msgs.head?)

/-- The message of the single aggregated error raised by fetchStockData
when every critical attempt fails (part_000 lines 557-570): dedup the
attempt messages, select the best one, fall back to the generic
manual-input message. -/
def aggregateMessage (errorMessages : List String) : String :=
  match selectBest (jsSetDedup errorMessages) with
  | some m => if m = "" then "データ取得できませんでした。手動で価格を入力してください。" else m
  | none => "データ取得できませんでした。手動で価格を入力してください。"

/-- One attempt of the critical fetch race: its completion time and its
outcome (success value or classified error message). -/
structure FetchAttempt (α : Type) where
  time : ℚ
  result : Except String α
deriving Repr

/-- The earliest-completing successful attempt, if any; on equal times the
earlier attempt in the list wins. -/
def earliestSuccess {α : Type} : List (FetchAttempt α) → Option (ℚ × α)
  | [] => none
  | a :: rest =>
    match a.result with
    | Except.ok v =>
      match earliestSuccess rest with
      | some (t, w) => if t < a.time then some (t, w) else some (a.time, v)
      | none => some (a.time, v)
    | Except.error _ => earliestSuccess rest

/-- Modelled from the spec: the critical snapshot phase races its attempts
with the platform builtin Promise.any (part_000 lines 550-555 and
644-654), whose semantics are not part of the repository's source.  Per
spec section 4.4 the race resolves with the value of whichever attempt
completes successfully first, and when every attempt fails it rejects with
the collection of all the failures in attempt order. -/
def promiseAny {α : Type} (attempts : List (FetchAttempt α)) : Except (List String) α :=
  match earliestSuccess attempts with
  | some (_, v) => Except.ok v
  | none =>
    Except.error (attempts.filterMap fun a =>
      match a.result with
      | Except.error e => some e
      | Except.ok _ => none)

/-- Rank of a position size under the order pass < small < medium <
large. -/
def sizeRank : Size → Nat
  | Size.pass => 0
  | Size.small => 1
  | Size.medium => 2
  | Size.large => 3

end JudgmentTool

namespace JudgmentTool

/-- Claim C5 counterexample: at the out-of-domain input "constructor" the
JS lookup hits the inherited Object.prototype member, a non-nullish value,
so calcMarketScore does not return the score 0 there and the claim that
every other input value whatsoever scores 0 is false of the program. -/
theorem calcMarketScore_proto_counterexample :
    calcMarketScore "constructor" ≠ JsValue.num 0
    ∧ calcMarketScore "constructor" = JsValue.inherited "constructor" :=
  ⟨by decide, by decide⟩

/-- Claim C5 as amended: calcMarketScore returns the score 2 for good, 0
for normal, -2 for bad, and the score 0 for every other string except the
names of Object.prototype members, for which the lookup returns the
inherited non-nullish member instead of a score. -/
theorem calcMarketScore_lookup_spec :
    calcMarketScore "good" = JsValue.num 2
    ∧ calcMarketScore "normal" = JsValue.num 0
    ∧ calcMarketScore "bad" = JsValue.num (-2)
    ∧ (∀ s : String, s ∈ objectPrototypeKeys →
        calcMarketScore s = JsValue.inherited s)
    ∧ (∀ s : String, s ≠ "good" → s ≠ "normal" → s ≠ "bad" →
        s ∉ objectPrototypeKeys → calcMarketScore s = JsValue.num 0) := by
  refine ⟨rfl, rfl, rfl, ?_, ?_⟩
  · intro s hs
    have h1 : s ≠ "good" := by rintro rfl; exact absurd hs (by decide)
    have h2 : s ≠ "normal" := by rintro rfl; exact absurd hs (by decide)
    have h3 : s ≠ "bad" := by rintro rfl; exact absurd hs (by decide)
    rw [calcMarketScore, if_neg h1, if_neg h2, if_neg h3, if_pos hs]
  · intro s h1 h2 h3 h4
    rw [calcMarketScore, if_neg h1, if_neg h2, if_neg h3, if_neg h4]

/-- Witness for the amended claim C5 at the prototype-member input
"constructor" and the plain out-of-domain input "mixed". -/
theorem calcMarketScore_lookup_spec_witness :
    calcMarketScore "constructor" = JsValue.inherited "constructor"
    ∧ calcMarketScore "mixed" = JsValue.num 0 :=
  ⟨calcMarketScore_lookup_spec.2.2.2.1 "constructor" (by decide),
   calcMarketScore_lookup_spec.2.2.2.2 "mixed" (by decide) (by decide)
     (by decide) (by decide)⟩

/-- Claim C3: calcStopLoss returns the market-dependent rounding of
prevLow * 0.995 when currentPrice > prevLow and of currentPrice * 0.98
otherwise, where the rounding is integer floor for market jp and rounding
to two decimals for market us; in particular calcStopLoss 105 100 jp = 99
and calcStopLoss 95 100 us = 93.10. -/
theorem calcStopLoss_formula :
    (∀ (c l : ℚ) (market : String),
        calcStopLoss c l market =
          marketRound market (if l < c then l * 0.995 else c * 0.98))
    ∧ (∀ v : ℚ, marketRound "jp" v = ((⌊v⌋ : ℤ) : ℚ))
    ∧ (∀ v : ℚ, marketRound "us" v = ((⌊v * 100 + 1/2⌋ : ℤ) : ℚ) / 100)
    ∧ calcStopLoss 105 100 "jp" = 99
    ∧ calcStopLoss 95 100 "us" = 93.10 := by
  refine ⟨?_, ?_, ?_, ?_, ?_⟩
  · intro c l market
    by_cases h : l < c
    · rw [calcStopLoss, if_pos h, if_pos h]
    · rw [calcStopLoss, if_neg h, if_neg h]
  · intro v
    rw [marketRound, if_neg (by decide : ¬ ("jp" : String) = "us")]
  · intro v
    rw [marketRound, if_pos rfl]
  · rw [calcStopLoss, if_pos (by norm_num : (105:ℚ) > 100), marketRound,
      if_neg (by decide : ¬ ("jp" : String) = "us")]
    norm_num
  · rw [calcStopLoss, if_neg (by norm_num : ¬ (95:ℚ) > 100), marketRound,
      if_pos rfl]
    norm_num

/-- Claim C1 counterexample: for market us at the positive sub-unit input
currentPrice = 1/5, prevLow = 1/2 the two-decimal rounding returns a stop
equal to the current price, so the returned stop-loss is not strictly
below currentPrice as the claim requires in every case. -/
theorem calcStopLoss_not_lt_counterexample :
    calcStopLoss (1/5) (1/2) "us" = 1/5 ∧
    ¬ calcStopLoss (1/5) (1/2) "us" < 1/5 := by
  have h : calcStopLoss (1/5) (1/2) "us" = 1/5 := by
    rw [calcStopLoss, if_neg (by norm_num : ¬ (1/5:ℚ) > 1/2), marketRound,
      if_pos rfl]
    norm_num
  exact ⟨h, by rw [h]; exact lt_irrefl _⟩

/-- Claim C1 as amended: the stop-loss returned by calcStopLoss is
strictly below currentPrice for all positive inputs whenever the market is
not us (integer-floor rounding), and for market us whenever currentPrice
and prevLow are both at least one currency unit; for sub-unit us prices
the two-decimal rounding can round the stop up to or above the current
price. -/
theorem calcStopLoss_lt_currentPrice :
    ∀ (c l : ℚ) (market : String), 0 < c → 0 < l →
      (market ≠ "us" ∨ (1 ≤ c ∧ 1 ≤ l)) →
      calcStopLoss c l market < c := by
  intro c l market hc hl hcond
  rw [calcStopLoss]
  by_cases hgt : c > l
  · rw [if_pos hgt, marketRound]
    by_cases hm : market = "us"
    · rw [if_pos hm]
      rcases hcond with hne | ⟨h1c, h1l⟩
      · exact absurd hm hne
      · have hf : ((⌊l * 0.995 * 100 + 1/2⌋ : ℤ) : ℚ) ≤ l * 0.995 * 100 + 1/2 :=
          Int.floor_le _
        rw [div_lt_iff₀ (by norm_num : (0:ℚ) < 100)]
        linarith [hf]
    · rw [if_neg hm]
      have hf : ((⌊l * 0.995⌋ : ℤ) : ℚ) ≤ l * 0.995 := Int.floor_le _
      linarith [hf]
  · rw [if_neg hgt, marketRound]
    by_cases hm : market = "us"
    · rw [if_pos hm]
      rcases hcond with hne | ⟨h1c, h1l⟩
      · exact absurd hm hne
      · have hf : ((⌊c * 0.98 * 100 + 1/2⌋ : ℤ) : ℚ) ≤ c * 0.98 * 100 + 1/2 :=
          Int.floor_le _
        rw [div_lt_iff₀ (by norm_num : (0:ℚ) < 100)]
        linarith [hf]
    · rw [if_neg hm]
      have hf : ((⌊c * 0.98⌋ : ℤ) : ℚ) ≤ c * 0.98 := Int.floor_le _
      linarith [hf]

/-- Witness for the amended claim C1 at currentPrice 105, prevLow 100,
market jp. -/
theorem calcStopLoss_lt_currentPrice_witness :
    calcStopLoss 105 100 "jp" < 105 :=
  calcStopLoss_lt_currentPrice 105 100 "jp" (by norm_num) (by norm_num)
    (Or.inl (by decide))

/-- Claim C4: for 0 < prevLow ≤ prevHigh and 0 < currentPrice, the
price-position cascade checks, in order, above_high (-2), below_low (-3),
near_support (+1, inclusive at prevLow * 1.01), near_resistance (-1,
inclusive at prevHigh * 0.99) and range (0); with prevLow 100 and
prevHigh 110 the prices 111, 99, 101, 109, 105 classify as the five cases
in turn. -/
theorem pricePosition_spec :
    ∀ (c hi lo : ℚ), 0 < lo → lo ≤ hi → 0 < c →
      ((hi < c → calcPricePositionScore c hi lo = ⟨-2, PricePos.above_high⟩)
       ∧ (c ≤ hi → c < lo →
            calcPricePositionScore c hi lo = ⟨-3, PricePos.below_low⟩)
       ∧ (c ≤ hi → lo ≤ c → c ≤ lo * 1.01 →
            calcPricePositionScore c hi lo = ⟨1, PricePos.near_support⟩)
       ∧ (c ≤ hi → lo ≤ c → lo * 1.01 < c → hi * 0.99 ≤ c →
            calcPricePositionScore c hi lo = ⟨-1, PricePos.near_resistance⟩)
       ∧ (c ≤ hi → lo ≤ c → lo * 1.01 < c → c < hi * 0.99 →
            calcPricePositionScore c hi lo = ⟨0, PricePos.range⟩))
      ∧ calcPricePositionScore 111 110 100 = ⟨-2, PricePos.above_high⟩
      ∧ calcPricePositionScore 99 110 100 = ⟨-3, PricePos.below_low⟩
      ∧ calcPricePositionScore 101 110 100 = ⟨1, PricePos.near_support⟩
      ∧ calcPricePositionScore 109 110 100 = ⟨-1, PricePos.near_resistance⟩
      ∧ calcPricePositionScore 105 110 100 = ⟨0, PricePos.range⟩ := by
  intro c hi lo hlo hle hc
  refine ⟨⟨?_, ?_, ?_, ?_, ?_⟩, ?_, ?_, ?_, ?_, ?_⟩
  · intro h1
    rw [calcPricePositionScore, if_pos h1]
  · intro h1 h2
    rw [calcPricePositionScore, if_neg (not_lt.mpr h1), if_pos h2]
  · intro h1 h2 h3
    rw [calcPricePositionScore, if_neg (not_lt.mpr h1),
      if_neg (not_lt.mpr h2), if_pos h3]
  · intro h1 h2 h3 h4
    rw [calcPricePositionScore, if_neg (not_lt.mpr h1),
      if_neg (not_lt.mpr h2), if_neg (not_le.mpr h3), if_pos h4]
  · intro h1 h2 h3 h4
    rw [calcPricePositionScore, if_neg (not_lt.mpr h1),
      if_neg (not_lt.mpr h2), if_neg (not_le.mpr h3),
      if_neg (not_le.mpr h4)]
  · norm_num [calcPricePositionScore]
  · norm_num [calcPricePositionScore]
  · norm_num [calcPricePositionScore]
  · norm_num [calcPricePositionScore]
  · norm_num [calcPricePositionScore]

/-- Witness for claim C4 at prevLow 100, prevHigh 110, price 105. -/
theorem pricePosition_spec_witness :
    calcPricePositionScore 105 110 100 = ⟨0, PricePos.range⟩ :=
  (pricePosition_spec 105 110 100 (by norm_num) (by norm_num)
      (by norm_num)).1.2.2.2.2 (by norm_num) (by norm_num) (by norm_num)
    (by norm_num)

/-- Claim C2: both entry-signal functions evaluate their rule lists in
order with first match winning: focus ≤ 2 always gives ng (even at
totalScore 10 with focus 1); otherwise the short horizon gives ng on
sentiment bad with focus < 4, the mid horizon gives watch on earningsProx
week with totalScore < 5; otherwise totalScore ≥ 3 (short) / 5 (mid) gives
ok, ≥ 0 (short) / 1 (mid) gives watch, and everything else ng. -/
theorem entrySignal_spec :
    ∀ (ts focus : Int) (sentiment earningsProx : String),
      ((focus ≤ 2 → calcEntrySignal ts focus sentiment = Signal.ng
          ∧ calcEntrySignalMid ts focus earningsProx = Signal.ng)
       ∧ (2 < focus → sentiment = "bad" → focus < 4 →
            calcEntrySignal ts focus sentiment = Signal.ng)
       ∧ (2 < focus → ¬(sentiment = "bad" ∧ focus < 4) →
            ((3 ≤ ts → calcEntrySignal ts focus sentiment = Signal.ok)
             ∧ (0 ≤ ts → ts < 3 →
                  calcEntrySignal ts focus sentiment = Signal.watch)
             ∧ (ts < 0 → calcEntrySignal ts focus sentiment = Signal.ng)))
       ∧ (2 < focus → earningsProx = "week" → ts < 5 →
            calcEntrySignalMid ts focus earningsProx = Signal.watch)
       ∧ (2 < focus → ¬(earningsProx = "week" ∧ ts < 5) →
            ((5 ≤ ts → calcEntrySignalMid ts focus earningsProx = Signal.ok)
             ∧ (1 ≤ ts → ts < 5 →
                  calcEntrySignalMid ts focus earningsProx = Signal.watch)
             ∧ (ts < 1 →
                  calcEntrySignalMid ts focus earningsProx = Signal.ng))))
      ∧ calcEntrySignal 10 1 sentiment = Signal.ng
      ∧ calcEntrySignalMid 10 1 earningsProx = Signal.ng := by
  intro ts focus sentiment earningsProx
  refine ⟨⟨?_, ?_, ?_, ?_, ?_⟩, ?_, ?_⟩
  · intro h
    exact ⟨by rw [calcEntrySignal, if_pos h], by rw [calcEntrySignalMid, if_pos h]⟩
  · intro hf hs hf4
    rw [calcEntrySignal, if_neg (by omega), if_pos ⟨hs, hf4⟩]
  · intro hf hhard
    refine ⟨?_, ?_, ?_⟩
    · intro h3
      rw [calcEntrySignal, if_neg (by omega), if_neg hhard, if_pos h3]
    · intro h0 h3
      rw [calcEntrySignal, if_neg (by omega), if_neg hhard,
        if_neg (by omega), if_pos h0]
    · intro hneg
      rw [calcEntrySignal, if_neg (by omega), if_neg hhard,
        if_neg (by omega), if_neg (by omega)]
  · intro hf he h5
    rw [calcEntrySignalMid, if_neg (by omega), if_pos ⟨he, h5⟩]
  · intro hf hhard
    refine ⟨?_, ?_, ?_⟩
    · intro h5
      rw [calcEntrySignalMid, if_neg (by omega), if_neg hhard, if_pos h5]
    · intro h1 h5
      rw [calcEntrySignalMid, if_neg (by omega), if_neg hhard,
        if_neg (by omega), if_pos h1]
    · intro h1
      rw [calcEntrySignalMid, if_neg (by omega), if_neg hhard,
        if_neg (by omega), if_neg (by omega)]
  · rw [calcEntrySignal, if_pos (by omega)]
  · rw [calcEntrySignalMid, if_pos (by omega)]

/-- Witness for claim C2: the hard rule beats a perfect score in both
horizons. -/
theorem entrySignal_spec_witness :
    calcEntrySignal 10 1 "good" = Signal.ng
    ∧ calcEntrySignalMid 10 1 "far" = Signal.ng :=
  ⟨(entrySignal_spec 10 1 "good" "far").2.1,
   (entrySignal_spec 10 1 "good" "far").2.2⟩

/-- Claim C6: calcRR returns none exactly when the target is absent, at
most the current price, or the risk currentPrice - stopLoss is
nonpositive, and otherwise returns (target - current) / (current - stop);
in particular calcRR 100 95 (some 115) = some 3 and calcRR 100 95
(some 90) = none. -/
theorem calcRR_spec :
    ∀ (c s : ℚ) (tp : Option ℚ), 0 < c →
      ((calcRR c s tp = none ↔
          tp = none ∨ (∃ t, tp = some t ∧ t ≤ c) ∨ c - s ≤ 0)
       ∧ (∀ t, tp = some t → c < t → 0 < c - s →
            calcRR c s tp = some ((t - c) / (c - s))))
      ∧ calcRR 100 95 (some 115) = some 3
      ∧ calcRR 100 95 (some 90) = none := by
  intro c s tp hc
  refine ⟨⟨?_, ?_⟩, ?_, ?_⟩
  · cases tp with
    | none => simp [calcRR]
    | some t =>
      simp only [calcRR]
      constructor
      · intro hnone
        by_cases h1 : t = 0 ∨ t ≤ c
        · rcases h1 with h0 | hle
          · exact Or.inr (Or.inl ⟨t, rfl, by rw [h0]; exact le_of_lt hc⟩)
          · exact Or.inr (Or.inl ⟨t, rfl, hle⟩)
        · rw [if_neg h1] at hnone
          by_cases h2 : c - s ≤ 0
          · exact Or.inr (Or.inr h2)
          · rw [if_neg h2] at hnone
            exact absurd hnone (by simp)
      · rintro (h | ⟨u, hu, hle⟩ | hrisk)
        · exact absurd h (by simp)
        · rw [Option.some_inj] at hu
          rw [if_pos (Or.inr (hu ▸ hle))]
        · by_cases h1 : t = 0 ∨ t ≤ c
          · rw [if_pos h1]
          · rw [if_neg h1, if_pos hrisk]
  · intro t ht hlt hrisk
    have h1 : ¬(t = 0 ∨ t ≤ c) := by
      push_neg
      exact ⟨ne_of_gt (lt_trans hc hlt), hlt⟩
    rw [ht, calcRR]
    rw [if_neg h1, if_neg (not_le.mpr hrisk)]
  · norm_num [calcRR]
  · norm_num [calcRR]

/-- Witness for claim C6 at currentPrice 100, stop 95, target 115. -/
theorem calcRR_spec_witness : calcRR 100 95 (some 115) = some 3 :=
  (calcRR_spec 100 95 (some 115) (by norm_num)).2.1

/-- The size rank assigned by the tier cascade never increases when
riskPercent increases, the score, focus and sentiment being fixed. -/
lemma sizeTier_rank_antitone (score focus : Int) (sentiment : String)
    {rp1 rp2 : ℚ} (hle : rp1 ≤ rp2) :
    sizeRank (sizeTier score rp2 focus sentiment)
      ≤ sizeRank (sizeTier score rp1 focus sentiment) := by
  by_cases a2 : 4 ≤ score ∧ rp2 ≤ 2 ∧ 4 ≤ focus ∧ sentiment = "good"
  · have a1 : 4 ≤ score ∧ rp1 ≤ 2 ∧ 4 ≤ focus ∧ sentiment = "good" :=
      ⟨a2.1, le_trans hle a2.2.1, a2.2.2⟩
    rw [sizeTier, if_pos a2, sizeTier, if_pos a1]
  · by_cases b2 : 2 ≤ score ∧ rp2 ≤ 3 ∧ 3 ≤ focus
    · have b1 : 2 ≤ score ∧ rp1 ≤ 3 ∧ 3 ≤ focus :=
        ⟨b2.1, le_trans hle b2.2.1, b2.2.2⟩
      rw [sizeTier, if_neg a2, if_pos b2]
      by_cases a1 : 4 ≤ score ∧ rp1 ≤ 2 ∧ 4 ≤ focus ∧ sentiment = "good"
      · rw [sizeTier, if_pos a1]
        decide
      · rw [sizeTier, if_neg a1, if_pos b1]
    · by_cases c2h : 0 ≤ score ∧ rp2 ≤ 5
      · have c1h : 0 ≤ score ∧ rp1 ≤ 5 := ⟨c2h.1, le_trans hle c2h.2⟩
        rw [sizeTier, if_neg a2, if_neg b2, if_pos c2h]
        by_cases a1 : 4 ≤ score ∧ rp1 ≤ 2 ∧ 4 ≤ focus ∧ sentiment = "good"
        · rw [sizeTier, if_pos a1]
          decide
        · by_cases b1 : 2 ≤ score ∧ rp1 ≤ 3 ∧ 3 ≤ focus
          · rw [sizeTier, if_neg a1, if_pos b1]
            decide
          · rw [sizeTier, if_neg a1, if_neg b1, if_pos c1h]
      · rw [sizeTier, if_neg a2, if_neg b2, if_neg c2h]
        exact Nat.zero_le _

/-- Claim C7: short-horizon position sizing is antitone in risk: for a
fixed score, focus and sentiment, any price pair with a larger (or equal)
riskPercent never receives a larger size under the order pass < small <
medium < large. -/
theorem positionSize_antitone :
    ∀ (score focus : Int) (sentiment : String) (c1 s1 c2 s2 : ℚ),
      riskPercent c1 s1 ≤ riskPercent c2 s2 →
      sizeRank (calcPositionSize score c2 s2 focus sentiment)
        ≤ sizeRank (calcPositionSize score c1 s1 focus sentiment) := by
  intro score focus sentiment c1 s1 c2 s2 h
  exact sizeTier_rank_antitone score focus sentiment h

/-- Witness for claim C7: moving the stop from 99 to 95 at price 100
raises riskPercent from 1 to 5, and the size cannot improve. -/
theorem positionSize_antitone_witness :
    sizeRank (calcPositionSize 3 100 95 4 "good")
      ≤ sizeRank (calcPositionSize 3 100 99 4 "good") :=
  positionSize_antitone 3 4 "good" 100 99 100 95 (by norm_num [riskPercent])

/-- Claim C10: whenever the short-horizon sizing returns large (which
needs score ≥ 4, riskPercent ≤ 2, focus ≥ 4 and sentiment good), the
short-horizon entry signal at the same score, focus and sentiment is ok. -/
theorem largeSize_implies_ok :
    ∀ (score : Int) (c s : ℚ) (focus : Int) (sentiment : String),
      calcPositionSize score c s focus sentiment = Size.large →
      calcEntrySignal score focus sentiment = Signal.ok := by
  intro score c s focus sentiment hl
  unfold calcPositionSize sizeTier at hl
  by_cases a : 4 ≤ score ∧ riskPercent c s ≤ 2 ∧ 4 ≤ focus ∧ sentiment = "good"
  · obtain ⟨hs, _, hf, hsent⟩ := a
    have hnb : ¬(sentiment = "bad" ∧ focus < 4) := by
      rintro ⟨hb, _⟩
      rw [hsent] at hb
      exact absurd hb (by decide)
    rw [calcEntrySignal, if_neg (by omega), if_neg hnb, if_pos (by omega)]
  · rw [if_neg a] at hl
    by_cases b : 2 ≤ score ∧ riskPercent c s ≤ 3 ∧ 3 ≤ focus
    · rw [if_pos b] at hl
      exact absurd hl (by decide)
    · rw [if_neg b] at hl
      by_cases cc : 0 ≤ score ∧ riskPercent c s ≤ 5
      · rw [if_pos cc] at hl
        exact absurd hl (by decide)
      · rw [if_neg cc] at hl
        exact absurd hl (by decide)

/-- Witness for claim C10 at score 4, price 100, stop 99, focus 4,
sentiment good, where the size is large. -/
theorem largeSize_implies_ok_witness : calcEntrySignal 4 4 "good" = Signal.ok :=
  largeSize_implies_ok 4 100 99 4 "good"
    (by norm_num [calcPositionSize, sizeTier, riskPercent])

/-- find? skips a leading block on which the predicate is false. -/
lemma find?_append_of_all_false {p : String → Bool} :
    ∀ (l1 l2 : List String), (∀ x ∈ l1, p x = false) →
      (l1 ++ l2).find? p = l2.find? p := by
  intro l1 l2
  induction l1 with
  | nil => intro _; rfl
  | cons a t ih =>
    intro h
    have ha : p a = false := h a (List.mem_cons_self a t)
    simp only [List.cons_append, List.find?, ha]
    exact ih fun x hx => h x (List.mem_cons_of_mem a hx)

/-- Claim C8 counterexample: at concrete failure sets, the selection does
not follow the claimed priority.  First list: one SymbolNotFound failure
(the AV adapter's provider-prefixed unknown-symbol message) among two
transport failures, yet the surfaced message is the transport message
HTTP 500, not the SymbolNotFound one.  Second list: a provider-internal
rate-limit message together with a generic transport message, yet the
transport message is surfaced over the provider-internal one. -/
theorem aggregate_message_counterexample :
    aggregateMessage ["HTTP 500", "[AV] 未対応シンボル（AAPL）",
        "プロキシ経由の取得に失敗しました。Twelve Data APIキーを設定すると安定して取得できます。"]
      = "HTTP 500"
    ∧ aggregateMessage ["[TD] API利用制限。しばらく待ってから再試行してください。", "HTTP 500"]
      = "HTTP 500" :=
  ⟨by decide, by decide⟩

/-- Claim C8 as amended: the aggregated message is chosen from the
deduplicated attempt messages by the chain: first message that neither
contains the generic manual-input marker nor carries an AV/TD provider
prefix (a class containing both user-actionable messages such as symbol
not found and plain transport messages), else first message without the
generic marker, else the first message.  In particular a SymbolNotFound
message is surfaced whenever every earlier message is generic or
provider-prefixed. -/
theorem aggregate_message_priority :
    (∀ (pre post : List String) (m : String), m ≠ "" →
        isGeneric m = false → isApiError m = false →
        (∀ x ∈ pre, isGeneric x = true ∨ isApiError x = true) →
        selectBest (pre ++ m :: post) = some m)
    ∧ (∀ (pre post : List String) (m : String), m ≠ "" →
        isGeneric m = false →
        (∀ x ∈ pre ++ m :: post, isGeneric x = true ∨ isApiError x = true) →
        (∀ x ∈ pre, isGeneric x = true) →
        selectBest (pre ++ m :: post) = some m)
    ∧ (∀ msgs : List String, (∀ x ∈ msgs, isGeneric x = true) →
        selectBest msgs = msgs.head?) := by
  refine ⟨?_, ?_, ?_⟩
  · intro pre post m hne hg ha hpre
    have hp : ∀ x ∈ pre, (!isGeneric x && !isApiError x) = false := by
      intro x hx
      rcases hpre x hx with h | h <;> simp [h]
    rw [selectBest, find?_append_of_all_false pre (m :: post) hp]
    rw [List.find?_cons_of_pos _ (by simp [hg, ha])]
    simp [jsOrString, hne]
  · intro pre post m hne hg hall hpre
    have hfind1 : (pre ++ m :: post).find?
        (fun x => !isGeneric x && !isApiError x) = none := by
      rw [List.find?_eq_none]
      intro x hx
      rcases hall x hx with h | h <;> simp [h]
    have hp2 : ∀ x ∈ pre, (!isGeneric x) = false := by
      intro x hx
      simp [hpre x hx]
    rw [selectBest, hfind1, find?_append_of_all_false pre (m :: post) hp2]
    rw [List.find?_cons_of_pos _ (by simp [hg])]
    simp [jsOrString, hne]
  · intro msgs hall
    have h1 : msgs.find? (fun m => !isGeneric m && !isApiError m) = none := by
      rw [List.find?_eq_none]
      intro x hx
      simp [hall x hx]
    have h2 : msgs.find? (fun m => !isGeneric m) = none := by
      rw [List.find?_eq_none]
      intro x hx
      simp [hall x hx]
    rw [selectBest, h1, h2]
    rfl

/-- Witness for the amended claim C8: a SymbolNotFound message between
two provider rate-limit messages is the one surfaced. -/
theorem aggregate_message_priority_witness :
    selectBest ["[TD] API利用制限。しばらく待ってから再試行してください。",
        "銘柄が見つかりません（7011:TSE）",
        "[AV] API利用制限中（25回/日）。明日また試してください。"]
      = some "銘柄が見つかりません（7011:TSE）" :=
  aggregate_message_priority.1
    ["[TD] API利用制限。しばらく待ってから再試行してください。"]
    ["[AV] API利用制限中（25回/日）。明日また試してください。"]
    "銘柄が見つかりません（7011:TSE）" (by decide) (by decide) (by decide)
    (by
      intro x hx
      rw [List.mem_singleton] at hx
      subst hx
      exact Or.inr (by decide))

/-- A list of attempts that all failed has no earliest success. -/
lemma earliestSuccess_of_all_errors {α : Type} :
    ∀ l : List (FetchAttempt α),
      (∀ b ∈ l, ∃ e, b.result = Except.error e) →
      earliestSuccess l = none := by
  intro l
  induction l with
  | nil => intro _; rfl
  | cons b t ih =>
    intro h
    obtain ⟨e, he⟩ := h b (List.mem_cons_self b t)
    simp only [earliestSuccess, he]
    exact ih fun x hx => h x (List.mem_cons_of_mem b hx)

/-- A leading block of failed attempts does not change the earliest
success. -/
lemma earliestSuccess_append_errors {α : Type} :
    ∀ (pre l : List (FetchAttempt α)),
      (∀ b ∈ pre, ∃ e, b.result = Except.error e) →
      earliestSuccess (pre ++ l) = earliestSuccess l := by
  intro pre l
  induction pre with
  | nil => intro _; rfl
  | cons b t ih =>
    intro h
    obtain ⟨e, he⟩ := h b (List.mem_cons_self b t)
    simp only [List.cons_append, earliestSuccess, he]
    exact ih fun x hx => h x (List.mem_cons_of_mem b hx)

/-- Claim C9: in the denotational model of the attempt race, when exactly
one attempt succeeds and every other attempt fails on its own, the race
resolves with that success regardless of the attempt's position in the
list, and the result does not depend on the failing attempts' times or
messages. -/
theorem race_single_success :
    ∀ (α : Type) (pre post : List (FetchAttempt α)) (a : FetchAttempt α) (v : α),
      a.result = Except.ok v →
      (∀ b ∈ pre, ∃ e, b.result = Except.error e) →
      (∀ b ∈ post, ∃ e, b.result = Except.error e) →
      promiseAny (pre ++ a :: post) = Except.ok v := by
  intro α pre post a v hv hpre hpost
  have h1 : earliestSuccess (a :: post) = some (a.time, v) := by
    simp only [earliestSuccess, hv, earliestSuccess_of_all_errors post hpost]
  have h2 : earliestSuccess (pre ++ a :: post) = some (a.time, v) := by
    rw [earliestSuccess_append_errors pre (a :: post) hpre, h1]
  simp only [promiseAny, h2]

/-- Witness for claim C9: the single success (completing at time 5, after
both failures settle) wins the race from the middle of the list. -/
theorem race_single_success_witness :
    promiseAny [⟨1, Except.error "タイムアウト"⟩,
        (⟨5, Except.ok 42⟩ : FetchAttempt Nat),
        ⟨2, Except.error "HTTP 500"⟩]
      = Except.ok 42 :=
  race_single_success Nat [⟨1, Except.error "タイムアウト"⟩]
    [⟨2, Except.error "HTTP 500"⟩] ⟨5, Except.ok 42⟩ 42 rfl
    (by
      intro b hb
      rw [List.mem_singleton] at hb
      subst hb
      exact ⟨"タイムアウト", rfl⟩)
    (by
      intro b hb
      rw [List.mem_singleton] at hb
      subst hb
      exact ⟨"HTTP 500", rfl⟩)

end JudgmentTool
